import Mathlib

/-!
Shallow embedding of the price-resolution and aggregation core of the
GroceryPriceFinder backend (aggregationService.ts, PriceProviderManager.ts,
MockPriceProvider.ts, cacheService.ts), together with theorems settling the
specification claims about it.

JavaScript numbers are modelled as rationals (`ℚ`); 32-bit integer
operations of the string hash are modelled with explicit wrapping on `ℤ`;
`number | null` fields are `Option ℚ`; thrown exceptions are `Except String`.
-/

set_option maxRecDepth 40000

namespace GroceryCore

/-- Data model: `GroceryItem` from packages/types (productId, name,
normalizedName, category, quantity). -/
structure GroceryItem where
  productId : ℤ
  name : String
  normalizedName : String
  category : String
  quantity : ℚ
deriving DecidableEq, Repr

/-- Data model: `ItemPrice` from packages/types. `price = none` models the
`null` "not available" value. -/
structure ItemPrice where
  itemName : String
  price : Option ℚ
  currency : String
  isMockData : Bool
deriving DecidableEq, Repr

/-- Data model: `Store` from packages/types. -/
structure Store where
  id : String
  name : String
  address : String
  distance : Option ℚ
  websiteUrl : Option String
deriving DecidableEq, Repr

/-- Data model: `StoreWithPrices` from packages/types (the TS interface
extends `Store`; here the base record is the `store` field). -/
structure StoreWithPrices where
  store : Store
  items : List ItemPrice
  total : Option ℚ
  usedMockData : Bool
  mockDataReason : Option String
deriving DecidableEq, Repr

/-- Result record of `PriceProviderManager.getPricesForStore`. -/
structure PricesResult where
  prices : List ItemPrice
  usedMockData : Bool
  mockDataReason : Option String
deriving DecidableEq, Repr

/-- JS `s.toLowerCase()`, modelled characterwise. -/
def jsLower (s : String) : String :=
  ⟨s.data.map Char.toLower⟩

/-- Strip leading and trailing whitespace from a character list. -/
def trimChars (l : List Char) : List Char :=
  ((l.dropWhile Char.isWhitespace).reverse.dropWhile Char.isWhitespace).reverse

/-- JS `s.toLowerCase().trim()`, the normalization used for price-cache keys
and mock-catalogue lookups. -/
def jsNormalize (s : String) : String :=
  ⟨trimChars (s.data.map Char.toLower)⟩

/-- ECMAScript ToInt32: wrap an integer into the signed 32-bit range. -/
def toInt32 (n : ℤ) : ℤ :=
  let m := n % 4294967296
  if m < 2147483648 then m else m - 4294967296

/-- One step of `MockPriceProvider.simpleHash`:
`hash = ((hash << 5) - hash) + charCode; hash = hash & hash`. -/
def hashStep (h : ℤ) (c : Char) : ℤ :=
  toInt32 (toInt32 (h * 32) - h + (c.toNat : ℤ))

/-- `MockPriceProvider.simpleHash`: fold `hashStep` over the characters and
take `Math.abs` of the resulting 32-bit value. -/
def simpleHash (s : String) : ℕ :=
  (s.data.foldl hashStep 0).natAbs

/-- `Math.round`: round half away from zero upwards (JS rounds halves toward
positive infinity), i.e. `⌊x + 1/2⌋`. -/
def jsRound (x : ℚ) : ℤ :=
  ⌊x + 1/2⌋

/-- `Math.round(x * 100) / 100`: round to 2 decimal places. -/
def round2 (x : ℚ) : ℚ :=
  (jsRound (x * 100) : ℚ) / 100

/-- `MockPriceProvider.priceRanges`: catalogue of known price ranges,
keyed by normalized (lowercased, trimmed) name. -/
def priceRanges (s : String) : Option (ℚ × ℚ) :=
  if s = "milk" then some (7/2, 5)
  else if s = "eggs" then some (3, 6)
  else if s = "bread" then some (5/2, 9/2)
  else if s = "butter" then some (4, 13/2)
  else if s = "cheese" then some (9/2, 8)
  else if s = "chicken" then some (6, 12)
  else if s = "beef" then some (8, 15)
  else if s = "rice" then some (2, 5)
  else if s = "pasta" then some (3/2, 7/2)
  else if s = "apples" then some (2, 5)
  else if s = "bananas" then some (3/2, 3)
  else if s = "tomatoes" then some (5/2, 9/2)
  else if s = "lettuce" then some (2, 4)
  else if s = "carrots" then some (3/2, 7/2)
  else if s = "onions" then some (1, 5/2)
  else if s = "potatoes" then some (3, 6)
  else if s = "cereal" then some (7/2, 13/2)
  else if s = "coffee" then some (6, 12)
  else if s = "sugar" then some (5/2, 9/2)
  else if s = "flour" then some (3, 11/2)
  else none

/-- `MockPriceProvider.generatePrice(itemName, quantity)`: normalize the
name with `toLowerCase().trim()`, pick the catalogue range (fallback
`{min: 2, max: 10}`), derive the base price from the hash, multiply by the
quantity and round to 2 decimals. -/
def generatePrice (itemName : String) (quantity : ℚ) : ℚ :=
  let normalized := jsNormalize itemName
  let range := (priceRanges normalized).getD (2, 10)
  let h := simpleHash normalized
  let rangeSize := range.2 - range.1
  let basePrice := range.1 + ((h % 100 : ℕ) : ℚ) / 100 * rangeSize
  round2 (basePrice * quantity)

/-- `MockPriceProvider.getPrices`: one `ItemPrice` per item, in order,
priced from the item's display name, all marked `isMockData = true`. -/
def mockGetPrices (items : List GroceryItem) : List ItemPrice :=
  items.map fun item =>
    { itemName := item.name
      price := some (generatePrice item.name item.quantity)
      currency := "USD"
      isMockData := true }

/-- A price provider (`PriceProvider` interface): `isAvailable` and
`getPrices` may throw, modelled by `Except String`. -/
structure Provider where
  name : String
  isAvailable : Except String Bool
  getPrices : List GroceryItem → Except String (List ItemPrice)

/-- The `MockPriceProvider` instance: always available, never throws. -/
def mockProvider : Provider where
  name := "MockProvider"
  isAvailable := .ok true
  getPrices := fun items => .ok (mockGetPrices items)

/-- The price half of `CacheService`: a key-value map from cache keys to
prices (TTL expiry is not observable by the claims and is not modelled). -/
def PriceCache : Type := String → Option ℚ

/-- `CacheService.getPriceKey`: `price:<lowercased trimmed store>:<productId>`. -/
def getPriceKey (storeName : String) (productId : ℤ) : String :=
  "price:" ++ jsNormalize storeName ++ ":" ++ toString productId

/-- `CacheService.getPrice`. -/
def getPrice (c : PriceCache) (storeName : String) (productId : ℤ) : Option ℚ :=
  c (getPriceKey storeName productId)

/-- `CacheService.setPrice`: a no-op when the price is `null`, otherwise
store under the normalized key. -/
def setPrice (c : PriceCache) (storeName : String) (productId : ℤ) :
    Option ℚ → PriceCache
  | none => c
  | some p => fun k => if k = getPriceKey storeName productId then some p else c k

/-- The empty cache. -/
def emptyCache : PriceCache := fun _ => none

/-- Character-list prefix test, used for JS `String.prototype.includes`. -/
def leadsWith : List Char → List Char → Bool
  | [], _ => true
  | _ :: _, [] => false
  | a :: as, b :: bs => a = b && leadsWith as bs

/-- Character-list substring test. -/
def hasSubSeq (needle : List Char) : List Char → Bool
  | [] => needle.isEmpty
  | c :: t => leadsWith needle (c :: t) || hasSubSeq needle t

/-- JS `hay.includes(needle)`. -/
def strHas (hay needle : String) : Bool :=
  hasSubSeq needle.data hay.data

/-- `PriceProviderManager` state: the provider registry (a `Map` keyed by
lowercased names) and the `FORCE_MOCK_DATA` flag. -/
structure Manager where
  providers : List (String × Provider)
  forceMockData : Bool

/-- Registry lookup (`Map.get`). -/
def lookupProv (k : String) : List (String × Provider) → Option Provider
  | [] => none
  | (k', p) :: t => if k = k' then some p else lookupProv k t

/-- `PriceProviderManager.selectProvider`: match the lowercased store name
against the walmart/target brand substrings; default to the mock provider. -/
def selectProvider (m : Manager) (storeName : String) : Provider :=
  if strHas (jsLower storeName) "walmart" then
    (lookupProv "walmart" m.providers).getD mockProvider
  else if strHas (jsLower storeName) "target" then
    (lookupProv "target" m.providers).getD mockProvider
  else mockProvider

/-- The manager built by the constructor: only the mock provider is
registered (scrapers are Phase 3), `forceMockData` from the environment. -/
def defaultManager (force : Bool) : Manager where
  providers := [("mock", mockProvider)]
  forceMockData := force

/-- `PriceProviderManager.getPricesFromCache`: collect the cached prices of
the items that hit, dropping misses. -/
def getPricesFromCache (cache : PriceCache) (storeName : String)
    (items : List GroceryItem) : List ItemPrice :=
  items.filterMap fun item =>
    (getPrice cache storeName item.productId).map fun p =>
      { itemName := item.name, price := some p, currency := "USD", isMockData := false }

/-- `PriceProviderManager.cachePrices`: write back every present, non-mock
price, pairing prices with items by index. -/
def cachePrices (cache : PriceCache) (storeName : String)
    (items : List GroceryItem) (prices : List ItemPrice) : PriceCache :=
  (items.zip prices).foldl
    (fun c pair =>
      match pair.2.price, pair.2.isMockData with
      | some p, false => setPrice c storeName pair.1.productId (some p)
      | _, _ => c)
    cache

/-- The guarded provider call in `getPricesForStore`: check `isAvailable`,
throw `Provider <name> is not available` when false, then call `getPrices`. -/
def tryProvider (p : Provider) (items : List GroceryItem) :
    Except String (List ItemPrice) :=
  match p.isAvailable with
  | .error e => .error e
  | .ok false => .error ("Provider " ++ p.name ++ " is not available")
  | .ok true => p.getPrices items

/-- `PriceProviderManager.getPricesForStore`: force-mock short-circuit, then
the all-or-nothing cache pass, then the selected provider with write-back on
success and mock fallback on any failure. Returns the result together with
the updated cache. -/
def getPricesForStore (m : Manager) (cache : PriceCache) (storeName : String)
    (items : List GroceryItem) : PricesResult × PriceCache :=
  if m.forceMockData then
    ({ prices := mockGetPrices items
       usedMockData := true
       mockDataReason := some "Demo mode enabled (FORCE_MOCK_DATA=true)" }, cache)
  else
    let cached := getPricesFromCache cache storeName items
    if cached.length = items.length then
      ({ prices := cached, usedMockData := false, mockDataReason := none }, cache)
    else
      let provider := selectProvider m storeName
      match tryProvider provider items with
      | .ok prices =>
          let isMock := provider.name == "MockProvider"
          ({ prices := prices
             usedMockData := isMock
             mockDataReason := if isMock then some "Scraper not yet implemented" else none },
           cachePrices cache storeName items prices)
      | .error e =>
          ({ prices := mockGetPrices items
             usedMockData := true
             mockDataReason := some ("Scraper failed: " ++ e) }, cache)

/-- `AggregationService.calculateTotal` loop: accumulate prices, bail out to
`null` at the first missing one. -/
def calcAux : List ItemPrice → ℚ → Option ℚ
  | [], acc => some acc
  | p :: t, acc =>
    match p.price with
    | none => none
    | some v => calcAux t (acc + v)

/-- `AggregationService.calculateTotal`: `null` if any price is missing,
else the sum rounded to 2 decimal places. -/
def calculateTotal (prices : List ItemPrice) : Option ℚ :=
  (calcAux prices 0).map round2

/-- Sum of the present prices of a list (used to state totals). -/
def sumPrices (l : List ItemPrice) : ℚ :=
  (l.map fun ip => (ip.price).getD 0).sum

/-- The successful branch of `getStoreWithPrices`. -/
def okRow (store : Store) (r : PricesResult) : StoreWithPrices where
  store := store
  items := r.prices
  total := calculateTotal r.prices
  usedMockData := r.usedMockData
  mockDataReason := r.mockDataReason

/-- The catch branch of `getStoreWithPrices`: every item price `null`,
`total = null`, `usedMockData = true`, reason `Error: <message>`. -/
def errorRow (store : Store) (items : List GroceryItem) (msg : String) :
    StoreWithPrices where
  store := store
  items := items.map fun item =>
    { itemName := item.name, price := none, currency := "USD", isMockData := false }
  total := none
  usedMockData := true
  mockDataReason := some ("Error: " ++ msg)

/-- `AggregationService.getStoreWithPrices`: run the per-store pipeline
(`fetch`), catching any exception into the degraded row. -/
def getStoreWithPrices (fetch : Store → List GroceryItem → Except String PricesResult)
    (store : Store) (items : List GroceryItem) : StoreWithPrices :=
  match fetch store items with
  | .ok r => okRow store r
  | .error e => errorRow store items e

/-- The sort comparator of `compareStores`, as the boolean relation
`compare(a, b) <= 0`: a `null` total compares greater than everything. -/
def rowLe (a b : StoreWithPrices) : Bool :=
  match a.total, b.total with
  | none, _ => false
  | some _, none => true
  | some ta, some tb => decide (ta ≤ tb)

/-- Stable insertion step of the sort model. -/
def insertRow (x : StoreWithPrices) : List StoreWithPrices → List StoreWithPrices
  | [] => [x]
  | y :: l => if rowLe x y then x :: y :: l else y :: insertRow x l

/-- Stable sort modelling `Array.prototype.sort` with the comparator of
`compareStores`. -/
def sortRows : List StoreWithPrices → List StoreWithPrices
  | [] => []
  | x :: l => insertRow x (sortRows l)

/-- `AggregationService.compareStores`: one row per store via
`getStoreWithPrices`, then sort by total with `null` totals last. -/
def compareStores (fetch : Store → List GroceryItem → Except String PricesResult)
    (stores : List Store) (items : List GroceryItem) : List StoreWithPrices :=
  sortRows (stores.map fun s => getStoreWithPrices fetch s items)

/-- The per-store pipeline of the real program: `getPricesForStore` on the
manager and cache snapshot, with a hypothetical per-store exception `err`
(the situation the catch branch of `getStoreWithPrices` guards against). -/
def pipelineFetch (m : Manager) (cache : PriceCache) (err : Store → Option String) :
    Store → List GroceryItem → Except String PricesResult :=
  fun s its =>
    match err s with
    | some e => .error e
    | none => .ok (getPricesForStore m cache s.name its).1

/-- The per-store pipeline with no injected exception. -/
def managerFetch (m : Manager) (cache : PriceCache) :
    Store → List GroceryItem → Except String PricesResult :=
  pipelineFetch m cache fun _ => none

end GroceryCore

namespace GroceryCore

/-- Ordering facts guaranteed between two rows placed in sorted position:
an absent total is never followed by a present one, and present totals are
non-decreasing. -/
def goodRel (a b : StoreWithPrices) : Prop :=
  (a.total = none → b.total = none) ∧
  ∀ ta tb, a.total = some ta → b.total = some tb → ta ≤ tb

theorem rowLe_good {a b : StoreWithPrices} (h : rowLe a b = true) : goodRel a b := by
  cases ha : a.total with
  | none => simp [rowLe, ha] at h
  | some ta =>
    cases hb : b.total with
    | none =>
      refine ⟨fun h' => ?_, fun ta' tb' ha' hb' => ?_⟩
      · rw [ha] at h'; cases h'
      · rw [hb] at hb'; cases hb'
    | some tb =>
      simp [rowLe, ha, hb] at h
      refine ⟨fun h' => ?_, fun ta' tb' ha' hb' => ?_⟩
      · rw [ha] at h'; cases h'
      · rw [ha] at ha'; rw [hb] at hb'
        cases ha'; cases hb'; exact h

theorem rowLe_not_good {a b : StoreWithPrices} (h : rowLe a b = false) : goodRel b a := by
  cases ha : a.total with
  | none =>
    refine ⟨fun h' => ha, fun tb' ta' hb' ha' => ?_⟩
    · rw [ha] at ha'; cases ha'
  | some ta =>
    cases hb : b.total with
    | none => simp [rowLe, ha, hb] at h
    | some tb =>
      simp [rowLe, ha, hb] at h
      refine ⟨fun h' => ?_, fun tb' ta' hb' ha' => ?_⟩
      · rw [hb] at h'; cases h'
      · rw [hb] at hb'; rw [ha] at ha'
        cases hb'; cases ha'; exact le_of_lt h

theorem goodRel_trans {a b c : StoreWithPrices}
    (h1 : goodRel a b) (h2 : goodRel b c) : goodRel a c := by
  refine ⟨fun ha => h2.1 (h1.1 ha), fun ta tc ha hc => ?_⟩
  cases hb : b.total with
  | none => exact absurd (h2.1 hb) (by rw [hc]; intro h; cases h)
  | some tb => exact le_trans (h1.2 ta tb ha hb) (h2.2 tb tc hb hc)

theorem insertRow_perm (x : StoreWithPrices) :
    ∀ l : List StoreWithPrices, (insertRow x l).Perm (x :: l)
  | [] => List.Perm.refl _
  | y :: t => by
    unfold insertRow
    by_cases h : rowLe x y = true
    · simp only [if_pos h]
      exact List.Perm.refl _
    · simp only [if_neg h]
      exact ((insertRow_perm x t).cons y).trans (List.Perm.swap x y t)

theorem sortRows_perm : ∀ l : List StoreWithPrices, (sortRows l).Perm l
  | [] => List.Perm.refl _
  | x :: t => (insertRow_perm x (sortRows t)).trans ((sortRows_perm t).cons x)

theorem mem_sortRows {r : StoreWithPrices} {l : List StoreWithPrices} :
    r ∈ sortRows l ↔ r ∈ l :=
  (sortRows_perm l).mem_iff

theorem length_sortRows (l : List StoreWithPrices) :
    (sortRows l).length = l.length :=
  (sortRows_perm l).length_eq

theorem pairwise_insertRow {x : StoreWithPrices} {l : List StoreWithPrices}
    (h : l.Pairwise goodRel) : (insertRow x l).Pairwise goodRel := by
  induction l with
  | nil => simp [insertRow]
  | cons y t ih =>
    rw [List.pairwise_cons] at h
    obtain ⟨hy, ht⟩ := h
    unfold insertRow
    by_cases hxy : rowLe x y = true
    · rw [if_pos hxy]
      refine List.Pairwise.cons ?_ (List.Pairwise.cons hy ht)
      intro z hz
      rcases List.mem_cons.mp hz with rfl | hz'
      · exact rowLe_good hxy
      · exact goodRel_trans (rowLe_good hxy) (hy z hz')
    · rw [if_neg hxy]
      refine List.Pairwise.cons ?_ (ih ht)
      intro z hz
      rcases List.mem_cons.mp ((insertRow_perm x t).mem_iff.mp hz) with rfl | hz'
      · exact rowLe_not_good (Bool.eq_false_iff.mpr hxy)
      · exact hy z hz'

theorem sortRows_pairwise : ∀ l : List StoreWithPrices, (sortRows l).Pairwise goodRel
  | [] => List.Pairwise.nil
  | _ :: t => pairwise_insertRow (sortRows_pairwise t)

theorem calcAux_eq_none :
    ∀ (l : List ItemPrice) (a : ℚ), calcAux l a = none ↔ ∃ ip ∈ l, ip.price = none
  | [], a => by simp [calcAux]
  | p :: t, a => by
    cases hp : p.price with
    | none =>
      constructor
      · intro _
        exact ⟨p, List.mem_cons_self p t, hp⟩
      · intro _
        simp [calcAux, hp]
    | some v =>
      simp only [calcAux, hp, calcAux_eq_none t (a + v)]
      constructor
      · rintro ⟨ip, hip, hnone⟩
        exact ⟨ip, List.mem_cons_of_mem p hip, hnone⟩
      · rintro ⟨ip, hip, hnone⟩
        rcases List.mem_cons.mp hip with rfl | hip'
        · rw [hp] at hnone; cases hnone
        · exact ⟨ip, hip', hnone⟩

theorem calcAux_eq_some :
    ∀ (l : List ItemPrice) (a : ℚ), (∀ ip ∈ l, ip.price ≠ none) →
      calcAux l a = some (a + sumPrices l)
  | [], a, _ => by simp [calcAux, sumPrices]
  | p :: t, a, h => by
    cases hp : p.price with
    | none => exact absurd hp (h p (List.mem_cons_self p t))
    | some v =>
      have ht := calcAux_eq_some t (a + v) fun ip hip => h ip (List.mem_cons_of_mem p hip)
      simp only [calcAux, hp, ht, sumPrices, List.map_cons, List.sum_cons, Option.getD_some]
      rw [add_assoc]

theorem calculateTotal_isSome_iff (l : List ItemPrice) :
    (calculateTotal l).isSome = true ↔ ∀ ip ∈ l, (ip.price).isSome = true := by
  constructor
  · intro h ip hip
    cases hipp : ip.price with
    | none =>
      have : calcAux l 0 = none := (calcAux_eq_none l 0).mpr ⟨ip, hip, hipp⟩
      rw [calculateTotal, this] at h; cases h
    | some v => rfl
  · intro h
    have hne : ∀ ip ∈ l, ip.price ≠ none := by
      intro ip hip hnone
      have := h ip hip
      rw [hnone] at this; cases this
    rw [calculateTotal, calcAux_eq_some l 0 hne]; rfl

theorem calculateTotal_eq_some {l : List ItemPrice} {t : ℚ}
    (h : calculateTotal l = some t) : t = round2 (sumPrices l) := by
  have hne : ∀ ip ∈ l, ip.price ≠ none := by
    intro ip hip hnone
    have : calcAux l 0 = none := (calcAux_eq_none l 0).mpr ⟨ip, hip, hnone⟩
    rw [calculateTotal, this] at h; cases h
  rw [calculateTotal, calcAux_eq_some l 0 hne] at h
  rw [Option.map_some'] at h
  have := (Option.some_inj).mp h
  rw [← this, zero_add]

theorem getPricesFromCache_full {cache : PriceCache} {storeName : String} :
    ∀ items : List GroceryItem,
      (getPricesFromCache cache storeName items).length = items.length →
      getPricesFromCache cache storeName items = items.map fun item =>
        { itemName := item.name
          price := some ((getPrice cache storeName item.productId).getD 0)
          currency := "USD"
          isMockData := false }
  | [], _ => rfl
  | a :: t, h => by
    cases hga : getPrice cache storeName a.productId with
    | none =>
      exfalso
      have h1 : getPricesFromCache cache storeName (a :: t) =
          getPricesFromCache cache storeName t := by
        simp only [getPricesFromCache, List.filterMap_cons, hga, Option.map_none']
      have h2 := List.length_filterMap_le
        (fun item => (getPrice cache storeName item.productId).map fun p =>
          ({ itemName := item.name, price := some p, currency := "USD",
             isMockData := false } : ItemPrice)) t
      rw [h1] at h
      have : t.length + 1 ≤ t.length := by
        calc t.length + 1 = (a :: t).length := rfl
        _ = (getPricesFromCache cache storeName t).length := h.symm
        _ ≤ t.length := h2
      omega
    | some p =>
      have h1 : getPricesFromCache cache storeName (a :: t) =
          ({ itemName := a.name, price := some p, currency := "USD",
             isMockData := false } : ItemPrice) :: getPricesFromCache cache storeName t := by
        simp only [getPricesFromCache, List.filterMap_cons, hga, Option.map_some']
      rw [h1] at h ⊢
      have ht := getPricesFromCache_full t (by simpa using h)
      rw [List.map_cons, ht, hga]
      rfl

theorem mockGetPrices_length (items : List GroceryItem) :
    (mockGetPrices items).length = items.length := by
  simp [mockGetPrices]

theorem lookupProv_mem {k : String} {p : Provider} :
    ∀ l : List (String × Provider), lookupProv k l = some p → (k, p) ∈ l
  | [], h => by cases h
  | (k', q) :: t, h => by
    by_cases hk : k = k'
    · rw [lookupProv, if_pos hk] at h
      rw [hk, Option.some_inj.mp h]
      exact List.mem_cons_self _ t
    · rw [lookupProv, if_neg hk] at h
      exact List.mem_cons_of_mem _ (lookupProv_mem t h)

theorem selectProvider_default (b : Bool) (n : String) :
    selectProvider (defaultManager b) n = mockProvider := by
  unfold selectProvider defaultManager
  split
  · rfl
  · split
    · rfl
    · rfl

theorem selectProvider_cases (m : Manager) (n : String) :
    selectProvider m n = mockProvider ∨
    ∃ k, (k, selectProvider m n) ∈ m.providers := by
  unfold selectProvider
  split
  · cases hl : lookupProv "walmart" m.providers with
    | none => left; rfl
    | some p => right; exact ⟨"walmart", lookupProv_mem _ hl⟩
  · split
    · cases hl : lookupProv "target" m.providers with
      | none => left; rfl
      | some p => right; exact ⟨"target", lookupProv_mem _ hl⟩
    · left; rfl

end GroceryCore

namespace GroceryCore

theorem mockGetPrices_get (items : List GroceryItem) (i : ℕ)
    (hi : i < (mockGetPrices items).length) (hj : i < items.length) :
    ((mockGetPrices items).get ⟨i, hi⟩).itemName = (items.get ⟨i, hj⟩).name := by
  simp only [mockGetPrices, List.get_eq_getElem, List.getElem_map]

theorem mockGetPrices_mem {ip : ItemPrice} {items : List GroceryItem}
    (h : ip ∈ mockGetPrices items) : ip.isMockData = true := by
  rcases List.mem_map.mp h with ⟨item, _, rfl⟩
  rfl

theorem getPricesFromCache_mem {ip : ItemPrice} {cache : PriceCache}
    {storeName : String} {items : List GroceryItem}
    (h : ip ∈ getPricesFromCache cache storeName items) : ip.isMockData = false := by
  rcases List.mem_filterMap.mp h with ⟨item, _, hf⟩
  cases hg : getPrice cache storeName item.productId with
  | none => rw [hg] at hf; cases hf
  | some p =>
    rw [hg, Option.map_some'] at hf
    rw [← Option.some_inj.mp hf]

/-- The provider interface contract of the spec (section 4.2): a successful
`getPrices` answers with one price per requested item, in request order. -/
def providerOk (items : List GroceryItem) (p : Provider) : Prop :=
  ∀ ps, p.getPrices items = .ok ps →
    ps.length = items.length ∧
    ∀ (i : ℕ) (hi : i < ps.length) (hj : i < items.length),
      (ps.get ⟨i, hi⟩).itemName = (items.get ⟨i, hj⟩).name

theorem mock_providerOk (items : List GroceryItem) : providerOk items mockProvider := by
  intro ps hps
  have : mockGetPrices items = ps := Except.ok.inj hps
  subst this
  exact ⟨mockGetPrices_length items, mockGetPrices_get items⟩

/-- Exhaustive description of the four result shapes of
`getPricesForStore`: force-mock, full cache hit, provider success, and
mock fallback after a provider failure. -/
theorem getPricesForStore_cases (m : Manager) (cache : PriceCache)
    (storeName : String) (items : List GroceryItem) :
    (m.forceMockData = true ∧
      (getPricesForStore m cache storeName items).1 =
        { prices := mockGetPrices items
          usedMockData := true
          mockDataReason := some "Demo mode enabled (FORCE_MOCK_DATA=true)" }) ∨
    (m.forceMockData = false ∧
      (getPricesFromCache cache storeName items).length = items.length ∧
      (getPricesForStore m cache storeName items).1 =
        { prices := getPricesFromCache cache storeName items
          usedMockData := false
          mockDataReason := none }) ∨
    (m.forceMockData = false ∧
      (getPricesFromCache cache storeName items).length ≠ items.length ∧
      ∃ ps, tryProvider (selectProvider m storeName) items = .ok ps ∧
        (getPricesForStore m cache storeName items).1 =
          { prices := ps
            usedMockData := (selectProvider m storeName).name == "MockProvider"
            mockDataReason :=
              if (selectProvider m storeName).name == "MockProvider" then
                some "Scraper not yet implemented"
              else none }) ∨
    (m.forceMockData = false ∧
      (getPricesFromCache cache storeName items).length ≠ items.length ∧
      ∃ e, tryProvider (selectProvider m storeName) items = .error e ∧
        (getPricesForStore m cache storeName items).1 =
          { prices := mockGetPrices items
            usedMockData := true
            mockDataReason := some ("Scraper failed: " ++ e) }) := by
  by_cases hf : m.forceMockData = true
  · left
    refine ⟨hf, ?_⟩
    unfold getPricesForStore
    rw [if_pos hf]
  · right
    have hf' : m.forceMockData = false := Bool.eq_false_iff.mpr hf
    by_cases hc : (getPricesFromCache cache storeName items).length = items.length
    · left
      refine ⟨hf', hc, ?_⟩
      unfold getPricesForStore
      rw [if_neg hf]
      simp [hc]
    · right
      cases htp : tryProvider (selectProvider m storeName) items with
      | ok ps =>
        left
        refine ⟨hf', hc, ps, rfl, ?_⟩
        unfold getPricesForStore
        rw [if_neg hf]
        simp [hc, htp]
      | error e =>
        right
        refine ⟨hf', hc, e, rfl, ?_⟩
        unfold getPricesForStore
        rw [if_neg hf]
        simp [hc, htp]

end GroceryCore

namespace GroceryCore

theorem getStoreWithPrices_ok {fetch : Store → List GroceryItem → Except String PricesResult}
    {s : Store} {items : List GroceryItem} {res : PricesResult}
    (h : fetch s items = .ok res) :
    getStoreWithPrices fetch s items = okRow s res := by
  unfold getStoreWithPrices
  rw [h]

theorem getStoreWithPrices_error {fetch : Store → List GroceryItem → Except String PricesResult}
    {s : Store} {items : List GroceryItem} {e : String}
    (h : fetch s items = .error e) :
    getStoreWithPrices fetch s items = errorRow s items e := by
  unfold getStoreWithPrices
  rw [h]

/-- Sample item used to instantiate proved theorems. -/
def sItemMilk : GroceryItem :=
  { productId := 1, name := "milk", normalizedName := "milk", category := "dairy", quantity := 1 }

/-- Sample store used to instantiate proved theorems. -/
def sStoreA : Store :=
  { id := "a", name := "Alpha Market", address := "1 A St", distance := none, websiteUrl := none }

/-- Second sample store used to instantiate proved theorems. -/
def sStoreB : Store :=
  { id := "b", name := "Beta Market", address := "2 B St", distance := none, websiteUrl := none }

/-- C9: `putPrice(store, id, p)` immediately followed by `getPrice(store, id)`
returns `p`; `putPrice` with an absent price is a no-op, so no key's
subsequent lookup changes. -/
theorem price_cache_roundtrip (c : PriceCache) (s : String) (i : ℤ) (p : ℚ)
    (s' : String) (i' : ℤ) :
    getPrice (setPrice c s i (some p)) s i = some p ∧
    setPrice c s i none = c ∧
    getPrice (setPrice c s i none) s' i' = getPrice c s' i' := by
  refine ⟨?_, rfl, rfl⟩
  unfold getPrice setPrice
  simp

/-- C1: for every store row of `compareStores` (over any per-store pipeline
outcome, with the validated non-empty item list the core assumes), the total
is present iff every item price is present, and a present total is the sum
of the item prices rounded to 2 decimal places. -/
theorem total_present_iff_all_prices
    (fetch : Store → List GroceryItem → Except String PricesResult)
    (stores : List Store) (items : List GroceryItem) (hne : items ≠ []) :
    ∀ r ∈ compareStores fetch stores items,
      ((r.total).isSome = true ↔ ∀ ip ∈ r.items, (ip.price).isSome = true) ∧
      ∀ t, r.total = some t → t = round2 (sumPrices r.items) := by
  intro r hr
  have hr' : r ∈ stores.map fun s => getStoreWithPrices fetch s items :=
    mem_sortRows.mp hr
  rcases List.mem_map.mp hr' with ⟨s, _, rfl⟩
  cases hfs : fetch s items with
  | ok res =>
    rw [getStoreWithPrices_ok hfs]
    exact ⟨calculateTotal_isSome_iff res.prices, fun t ht => calculateTotal_eq_some ht⟩
  | error e =>
    rw [getStoreWithPrices_error hfs]
    constructor
    · constructor
      · intro h
        exact absurd h (by simp [errorRow])
      · intro hall
        exfalso
        cases items with
        | nil => exact hne rfl
        | cons a t =>
          have hmem : ItemPrice.mk a.name none "USD" false ∈ (errorRow s (a :: t) e).items :=
            List.mem_map.mpr ⟨a, List.mem_cons_self a t, rfl⟩
          have := hall _ hmem
          cases this
    · intro t ht
      exact absurd ht (by simp [errorRow])

/-- Fetch outcome used to instantiate the C1 theorem. -/
def cFetch1 : Store → List GroceryItem → Except String PricesResult :=
  fun _ _ => .ok
    { prices := [{ itemName := "milk", price := some 1, currency := "USD", isMockData := false }]
      usedMockData := false
      mockDataReason := none }

/-- Row produced by `cFetch1` for `sStoreA`. -/
def row1 : StoreWithPrices :=
  okRow sStoreA
    { prices := [{ itemName := "milk", price := some 1, currency := "USD", isMockData := false }]
      usedMockData := false
      mockDataReason := none }

/-- Witness instantiating C1 at a concrete one-item comparison. -/
theorem total_present_iff_all_prices_witness :
    (row1.total).isSome = true ∧ (1 : ℚ) = round2 (sumPrices row1.items) := by
  have h := total_present_iff_all_prices cFetch1 [sStoreA] [sItemMilk]
    (by decide) row1 (by with_unfolding_all decide)
  exact ⟨h.1.mpr (by decide), h.2 1 (by with_unfolding_all decide)⟩

/-- C3: `compareStores` returns exactly one row per input store, and a store
whose per-store pipeline raises an exception contributes the degraded row:
all item prices absent, total absent, `usedMockData = true`, reason
`Error: <message>`. -/
theorem compareStores_one_row_per_store
    (fetch : Store → List GroceryItem → Except String PricesResult)
    (stores : List Store) (items : List GroceryItem) :
    (compareStores fetch stores items).length = stores.length ∧
    ∀ s ∈ stores, ∀ e, fetch s items = .error e →
      getStoreWithPrices fetch s items ∈ compareStores fetch stores items ∧
      getStoreWithPrices fetch s items = errorRow s items e ∧
      (errorRow s items e).total = none ∧
      (errorRow s items e).usedMockData = true ∧
      (errorRow s items e).mockDataReason = some ("Error: " ++ e) ∧
      (errorRow s items e).items.length = items.length ∧
      ∀ ip ∈ (errorRow s items e).items, ip.price = none := by
  constructor
  · rw [compareStores, length_sortRows, List.length_map]
  · intro s hs e he
    refine ⟨mem_sortRows.mpr (List.mem_map.mpr ⟨s, hs, rfl⟩),
      getStoreWithPrices_error he, rfl, rfl, rfl, by simp [errorRow], ?_⟩
    intro ip hip
    rcases List.mem_map.mp hip with ⟨item, _, rfl⟩
    rfl

/-- Fetch outcome raising an exception for every store, used to instantiate
the C3 theorem. -/
def errFetch : Store → List GroceryItem → Except String PricesResult :=
  fun _ _ => .error "boom"

/-- Witness instantiating C3 at a concrete throwing pipeline. -/
theorem compareStores_one_row_per_store_witness :
    (compareStores errFetch [sStoreA] [sItemMilk]).length = 1 ∧
    getStoreWithPrices errFetch sStoreA [sItemMilk] ∈
      compareStores errFetch [sStoreA] [sItemMilk] ∧
    getStoreWithPrices errFetch sStoreA [sItemMilk] = errorRow sStoreA [sItemMilk] "boom" ∧
    (errorRow sStoreA [sItemMilk] "boom").mockDataReason = some "Error: boom" := by
  have h := compareStores_one_row_per_store errFetch [sStoreA] [sItemMilk]
  have h2 := h.2 sStoreA (List.mem_cons_self _ _) "boom" rfl
  exact ⟨h.1, h2.1, h2.2.1, h2.2.2.2.2.1⟩

end GroceryCore

namespace GroceryCore

/-- C2 (amended): the result of `compareStores` is sorted: among rows with
present totals, earlier rows have totals less than or equal to later ones,
and a row with an absent total is never followed by one with a present
total. (The original biconditional `A before B iff A.total <= B.total`
cannot hold when two stores tie on total.) -/
theorem compareStores_sorted_le
    (fetch : Store → List GroceryItem → Except String PricesResult)
    (stores : List Store) (items : List GroceryItem) :
    (∀ (i j : ℕ) (hi : i < (compareStores fetch stores items).length)
        (hj : j < (compareStores fetch stores items).length), i < j →
        ∀ a b : ℚ,
          ((compareStores fetch stores items).get ⟨i, hi⟩).total = some a →
          ((compareStores fetch stores items).get ⟨j, hj⟩).total = some b →
          a ≤ b) ∧
    (∀ (i j : ℕ) (hi : i < (compareStores fetch stores items).length)
        (hj : j < (compareStores fetch stores items).length), i < j →
        ((compareStores fetch stores items).get ⟨i, hi⟩).total = none →
        ((compareStores fetch stores items).get ⟨j, hj⟩).total = none) := by
  have hp : (compareStores fetch stores items).Pairwise goodRel := sortRows_pairwise _
  rw [List.pairwise_iff_get] at hp
  constructor
  · intro i j hi hj hij a b ha hb
    exact (hp ⟨i, hi⟩ ⟨j, hj⟩ hij).2 a b ha hb
  · intro i j hi hj hij hnone
    exact (hp ⟨i, hi⟩ ⟨j, hj⟩ hij).1 hnone

/-- Fetch outcome giving store `a` total 1 and every other store total 2,
used to instantiate the C2 theorem. -/
def cFetch2 : Store → List GroceryItem → Except String PricesResult :=
  fun s _ => .ok
    { prices := [{ itemName := "x", price := some (if s.id = "a" then 1 else 2)
                   currency := "USD", isMockData := false }]
      usedMockData := false
      mockDataReason := none }

/-- Witness instantiating the C2 theorem on a two-store comparison whose
input order is reversed by the sort. -/
theorem compareStores_sorted_le_witness : (1 : ℚ) ≤ 2 := by
  have h := compareStores_sorted_le cFetch2 [sStoreB, sStoreA] [sItemMilk]
  exact h.1 0 1 (by with_unfolding_all decide) (by with_unfolding_all decide)
    (by decide) 1 2 (by with_unfolding_all decide) (by with_unfolding_all decide)

/-- The sorting law in the literal form of the claim: for two distinct
positions with present totals, the earlier-iff-less-or-equal biconditional. -/
def sortLawClaim (l : List StoreWithPrices) : Prop :=
  (∀ (i j : ℕ) (hi : i < l.length) (hj : j < l.length), i ≠ j →
    ∀ a b : ℚ, (l.get ⟨i, hi⟩).total = some a → (l.get ⟨j, hj⟩).total = some b →
      (i < j ↔ a ≤ b)) ∧
  (∀ (i j : ℕ) (hi : i < l.length) (hj : j < l.length),
    (l.get ⟨i, hi⟩).total = none → ((l.get ⟨j, hj⟩).total).isSome = true → j < i)

/-- C2 counterexample: under forced mock data two different stores get the
identical total for the same item list, and the literal sorting law fails on
the tied pair (taking A as the later row and B as the earlier one,
`A.total <= B.total` holds but A does not appear before B). -/
theorem sortLawClaim_false_on_tie :
    ¬ sortLawClaim (compareStores (managerFetch (defaultManager true) emptyCache)
      [sStoreA, sStoreB] [sItemMilk]) := by
  intro h
  have h2 := h.1 1 0 (by with_unfolding_all decide) (by with_unfolding_all decide)
    (by decide) (469/100) (469/100) (by with_unfolding_all decide)
    (by with_unfolding_all decide)
  exact absurd (h2.mpr le_rfl) (by decide)

end GroceryCore

namespace GroceryCore

theorem append_ne_empty (s t : String) (h : s ≠ "") : s ++ t ≠ "" := by
  cases s with | mk d1 =>
  cases t with | mk d2 =>
  intro heq
  have hd : d1 ++ d2 = [] := congrArg String.data heq
  exact h (by rw [(List.append_eq_nil.mp hd).1])

theorem tryProvider_ok {p : Provider} {items : List GroceryItem} {ps : List ItemPrice}
    (h : tryProvider p items = .ok ps) : p.getPrices items = .ok ps := by
  unfold tryProvider at h
  cases hav : p.isAvailable with
  | error e => rw [hav] at h; cases h
  | ok b =>
    cases b with
    | false => rw [hav] at h; cases h
    | true => rw [hav] at h; exact h

/-- C4 (amended): when the selected provider is unavailable or its
`getPrices` throws, and the cache-first pass does not already resolve every
item, `getPricesForStore` returns the mock provider's full-length price list
with `usedMockData = true` and a non-empty `mockDataReason`. (Without the
cache condition the claim fails: a full cache hit bypasses the broken
provider and reports `usedMockData = false`.) -/
theorem fallback_guarantee (m : Manager) (cache : PriceCache) (storeName : String)
    (items : List GroceryItem)
    (hfail : (selectProvider m storeName).isAvailable = .ok false ∨
      ∃ e, (selectProvider m storeName).getPrices items = .error e)
    (hmiss : (getPricesFromCache cache storeName items).length ≠ items.length) :
    ((getPricesForStore m cache storeName items).1).prices = mockGetPrices items ∧
    ((getPricesForStore m cache storeName items).1).prices.length = items.length ∧
    ((getPricesForStore m cache storeName items).1).usedMockData = true ∧
    ((getPricesForStore m cache storeName items).1).mockDataReason ≠ none ∧
    ((getPricesForStore m cache storeName items).1).mockDataReason ≠ some "" := by
  have htry : ∃ e, tryProvider (selectProvider m storeName) items = .error e := by
    rcases hfail with hav | ⟨e, hgp⟩
    · exact ⟨_, by unfold tryProvider; rw [hav]⟩
    · cases hav2 : (selectProvider m storeName).isAvailable with
      | error e2 => exact ⟨e2, by unfold tryProvider; rw [hav2]⟩
      | ok b =>
        cases b with
        | false => exact ⟨_, by unfold tryProvider; rw [hav2]⟩
        | true => exact ⟨e, by unfold tryProvider; rw [hav2]; exact hgp⟩
  obtain ⟨e, he⟩ := htry
  rcases getPricesForStore_cases m cache storeName items with
    ⟨_, hres⟩ | ⟨_, hc, _⟩ | ⟨_, _, ps, htp, _⟩ | ⟨_, _, e', htp, hres⟩
  · rw [hres]
    refine ⟨rfl, mockGetPrices_length items, rfl, by simp, by simp⟩
  · exact absurd hc hmiss
  · rw [he] at htp; cases htp
  · rw [hres]
    refine ⟨rfl, mockGetPrices_length items, rfl, by simp, ?_⟩
    intro heq
    have h1 : "Scraper failed: " ++ e' = "" := Option.some_inj.mp heq
    exact append_ne_empty "Scraper failed: " e' (by decide) h1

/-- An always-failing provider, used to instantiate the C4 theorems. -/
def badProvider : Provider where
  name := "BadScraper"
  isAvailable := .ok false
  getPrices := fun _ => .error "offline"

/-- Manager with the failing provider registered for walmart stores. -/
def mgr4 : Manager where
  providers := [("walmart", badProvider)]
  forceMockData := false

/-- Witness instantiating C4: the broken walmart provider falls back to the
mock provider on a cache miss. -/
theorem fallback_guarantee_witness :
    ((getPricesForStore mgr4 emptyCache "Walmart" [sItemMilk]).1).prices =
      mockGetPrices [sItemMilk] ∧
    ((getPricesForStore mgr4 emptyCache "Walmart" [sItemMilk]).1).usedMockData = true := by
  have h := fallback_guarantee mgr4 emptyCache "Walmart" [sItemMilk]
    (Or.inl rfl) (by decide)
  exact ⟨h.1, h.2.2.1⟩

/-- A cache holding a price for product 1 at Walmart. -/
def cache4 : PriceCache := setPrice emptyCache "Walmart" 1 (some 3)

/-- C4 counterexample: with the same broken provider but a full cache hit,
`getPricesForStore` returns the cached prices with `usedMockData = false`
and no `mockDataReason`, contradicting the unconditional claim. -/
theorem fallback_guarantee_false_on_cache_hit :
    (selectProvider mgr4 "Walmart").isAvailable = .ok false ∧
    ((getPricesForStore mgr4 cache4 "Walmart" [sItemMilk]).1).usedMockData = false ∧
    ((getPricesForStore mgr4 cache4 "Walmart" [sItemMilk]).1).mockDataReason = none := by
  refine ⟨rfl, ?_, ?_⟩ <;> with_unfolding_all decide

end GroceryCore

namespace GroceryCore

theorem getPricesForStore_prices_align (m : Manager) (cache : PriceCache)
    (storeName : String) (items : List GroceryItem)
    (hp : ∀ kp ∈ m.providers, providerOk items kp.2) :
    ((getPricesForStore m cache storeName items).1).prices.length = items.length ∧
    ∀ (i : ℕ) (hi : i < ((getPricesForStore m cache storeName items).1).prices.length)
      (hj : i < items.length),
      (((getPricesForStore m cache storeName items).1).prices.get ⟨i, hi⟩).itemName =
        (items.get ⟨i, hj⟩).name := by
  rcases getPricesForStore_cases m cache storeName items with
    ⟨_, hres⟩ | ⟨_, hc, hres⟩ | ⟨_, _, ps, htp, hres⟩ | ⟨_, _, e, htp, hres⟩
  · rw [hres]
    exact ⟨mockGetPrices_length items, mockGetPrices_get items⟩
  · rw [hres]
    have hfull := getPricesFromCache_full items hc
    refine ⟨hc, ?_⟩
    intro i hi hj
    have hg := List.get_of_eq hfull ⟨i, hi⟩
    rw [hg]
    simp only [List.get_eq_getElem, Fin.coe_cast, List.getElem_map]
  · have hok : (selectProvider m storeName).getPrices items = .ok ps := tryProvider_ok htp
    have hpo : providerOk items (selectProvider m storeName) := by
      rcases selectProvider_cases m storeName with hsel | ⟨k, hmem⟩
      · rw [hsel]; exact mock_providerOk items
      · exact hp _ hmem
    have := hpo ps hok
    rw [hres]
    exact this
  · rw [hres]
    exact ⟨mockGetPrices_length items, mockGetPrices_get items⟩

/-- C5: every row of `compareStores` over the real per-store pipeline (with
providers honoring the interface contract, and with a possible injected
per-store exception) carries exactly one `ItemPrice` per input item, in
input order, on every path: force-mock, full cache hit, provider call,
fallback, and the degraded error row. -/
theorem items_align_with_input (m : Manager) (cache : PriceCache)
    (err : Store → Option String) (stores : List Store) (items : List GroceryItem)
    (hp : ∀ kp ∈ m.providers, providerOk items kp.2) :
    ∀ r ∈ compareStores (pipelineFetch m cache err) stores items,
      r.items.length = items.length ∧
      ∀ (i : ℕ) (hi : i < r.items.length) (hj : i < items.length),
        (r.items.get ⟨i, hi⟩).itemName = (items.get ⟨i, hj⟩).name := by
  intro r hr
  rcases List.mem_map.mp (mem_sortRows.mp hr) with ⟨s, _, rfl⟩
  cases herr : err s with
  | some e =>
    have hf : pipelineFetch m cache err s items = .error e := by
      unfold pipelineFetch; rw [herr]
    rw [getStoreWithPrices_error hf]
    refine ⟨by simp [errorRow], ?_⟩
    intro i hi hj
    have hitems : (errorRow s items e).items = items.map fun item =>
        ItemPrice.mk item.name none "USD" false := rfl
    have hg := List.get_of_eq hitems ⟨i, hi⟩
    rw [hg]
    simp only [List.get_eq_getElem, Fin.coe_cast, List.getElem_map]
  | none =>
    have hf : pipelineFetch m cache err s items =
        .ok (getPricesForStore m cache s.name items).1 := by
      unfold pipelineFetch; rw [herr]
    rw [getStoreWithPrices_ok hf]
    exact getPricesForStore_prices_align m cache s.name items hp

/-- The row the real pipeline produces for `sStoreA` when only the mock
provider is registered: used to instantiate the C5 and C6 theorems. -/
def rowMockA : StoreWithPrices :=
  getStoreWithPrices (pipelineFetch (defaultManager false) emptyCache fun _ => none)
    sStoreA [sItemMilk]

/-- Witness instantiating C5 on the shipped manager with a one-item list. -/
theorem items_align_with_input_witness : rowMockA.items.length = 1 := by
  have h := items_align_with_input (defaultManager false) emptyCache (fun _ => none)
    [sStoreA] [sItemMilk]
    (by
      intro kp hkp
      have hk := List.mem_singleton.mp hkp
      rw [hk]
      exact mock_providerOk _)
    rowMockA (by with_unfolding_all decide)
  exact h.1

end GroceryCore

namespace GroceryCore

/-- C6 (amended): for every store row of `compareStores` over the shipped
manager (only the mock provider registered) with a non-empty item list,
`usedMockData = true` iff some item entry is marked `isMockData = true` —
except on the whole-store error path, where the synthesized row has
`usedMockData = true` although every entry is marked `isMockData = false`. -/
theorem usedMockData_iff_mock_item (b : Bool) (cache : PriceCache)
    (err : Store → Option String) (stores : List Store) (items : List GroceryItem)
    (hne : items ≠ []) (s : Store) (hs : s ∈ stores) :
    getStoreWithPrices (pipelineFetch (defaultManager b) cache err) s items ∈
      compareStores (pipelineFetch (defaultManager b) cache err) stores items ∧
    (err s = none →
      ((getStoreWithPrices (pipelineFetch (defaultManager b) cache err) s items).usedMockData
          = true ↔
        ∃ ip ∈ (getStoreWithPrices (pipelineFetch (defaultManager b) cache err) s items).items,
          ip.isMockData = true)) ∧
    (∀ e, err s = some e →
      (getStoreWithPrices (pipelineFetch (defaultManager b) cache err) s items).usedMockData
          = true ∧
      ∀ ip ∈ (getStoreWithPrices (pipelineFetch (defaultManager b) cache err) s items).items,
        ip.isMockData = false) := by
  refine ⟨mem_sortRows.mpr (List.mem_map.mpr ⟨s, hs, rfl⟩), ?_, ?_⟩
  · intro herr
    have hf : pipelineFetch (defaultManager b) cache err s items =
        .ok (getPricesForStore (defaultManager b) cache s.name items).1 := by
      unfold pipelineFetch; rw [herr]
    rw [getStoreWithPrices_ok hf]
    rcases getPricesForStore_cases (defaultManager b) cache s.name items with
      ⟨_, hres⟩ | ⟨_, hc, hres⟩ | ⟨_, _, ps, htp, hres⟩ | ⟨_, _, e, htp, hres⟩
    · rw [hres]
      constructor
      · intro _
        cases items with
        | nil => exact absurd rfl hne
        | cons a t => exact ⟨_, List.mem_map.mpr ⟨a, List.mem_cons_self a t, rfl⟩, rfl⟩
      · intro _; rfl
    · rw [hres]
      constructor
      · intro hfalse; cases hfalse
      · rintro ⟨ip, hip, hmock⟩
        have hfalse := getPricesFromCache_mem
          (show ip ∈ getPricesFromCache cache s.name items from hip)
        rw [hmock] at hfalse
        cases hfalse
    · have hsel := selectProvider_default b s.name
      rw [hsel] at htp hres
      have hps : mockGetPrices items = ps := Except.ok.inj (tryProvider_ok htp)
      rw [hres]
      constructor
      · intro _
        cases items with
        | nil => exact absurd rfl hne
        | cons a t =>
          refine ⟨ItemPrice.mk a.name (some (generatePrice a.name a.quantity)) "USD" true,
            ?_, rfl⟩
          rw [← hps]
          exact List.mem_map.mpr ⟨a, List.mem_cons_self a t, rfl⟩
      · intro _; rfl
    · rw [hres]
      constructor
      · intro _
        cases items with
        | nil => exact absurd rfl hne
        | cons a t => exact ⟨_, List.mem_map.mpr ⟨a, List.mem_cons_self a t, rfl⟩, rfl⟩
      · intro _; rfl
  · intro e herr
    have hf : pipelineFetch (defaultManager b) cache err s items = .error e := by
      unfold pipelineFetch; rw [herr]
    rw [getStoreWithPrices_error hf]
    refine ⟨rfl, ?_⟩
    intro ip hip
    rcases List.mem_map.mp hip with ⟨item, _, rfl⟩
    rfl

/-- Witness instantiating the C6 theorem on the provider path of the shipped
manager: the mock-priced row reports `usedMockData = true`. -/
theorem usedMockData_iff_mock_item_witness :
    rowMockA ∈ compareStores (pipelineFetch (defaultManager false) emptyCache fun _ => none)
      [sStoreA] [sItemMilk] ∧
    rowMockA.usedMockData = true := by
  have h := usedMockData_iff_mock_item false emptyCache (fun _ => none)
    [sStoreA] [sItemMilk] (by decide) sStoreA (List.mem_cons_self _ _)
  refine ⟨h.1, (h.2.1 rfl).mpr ?_⟩
  refine ⟨ItemPrice.mk "milk" (some (469/100)) "USD" true, ?_, rfl⟩
  with_unfolding_all decide

/-- C6 counterexample: the degraded error row is returned with
`usedMockData = true` while every one of its item entries has
`isMockData = false`, so the claimed biconditional fails on the whole-store
error path. -/
theorem usedMockData_iff_false_on_error_row :
    errorRow sStoreA [sItemMilk] "boom" ∈
      compareStores (pipelineFetch (defaultManager false) emptyCache fun _ => some "boom")
        [sStoreA] [sItemMilk] ∧
    (errorRow sStoreA [sItemMilk] "boom").usedMockData = true ∧
    (errorRow sStoreA [sItemMilk] "boom").items.all (fun ip => !ip.isMockData) = true := by
  refine ⟨?_, rfl, rfl⟩
  with_unfolding_all decide

end GroceryCore

namespace GroceryCore

/-- C7: the end-to-end forced-mock scenario: one store named
"Walmart Supercenter" and the single item "whole milk" with quantity 1 yield
exactly one row whose only entry is mock-priced at the deterministic value
4.88 (inside the 3.50 to 5.00 dollar band), with the total equal to that
unit price rounded to 2 decimals, `usedMockData = true`, and a demo-mode
reason. -/
theorem forced_mock_whole_milk_scenario :
    compareStores (managerFetch (defaultManager true) emptyCache)
      [Store.mk "walmart-1" "Walmart Supercenter" "123 Main St" none none]
      [GroceryItem.mk 1 "whole milk" "whole milk" "dairy" 1] =
      [StoreWithPrices.mk
        (Store.mk "walmart-1" "Walmart Supercenter" "123 Main St" none none)
        [ItemPrice.mk "whole milk" (some (488/100)) "USD" true]
        (some (488/100)) true (some "Demo mode enabled (FORCE_MOCK_DATA=true)")] ∧
    generatePrice "whole milk" 1 = 488/100 ∧
    (7/2 : ℚ) ≤ 488/100 ∧ (488/100 : ℚ) ≤ 5 ∧
    round2 (generatePrice "whole milk" 1) = 488/100 := by
  refine ⟨?_, ?_, ?_, ?_, ?_⟩ <;> with_unfolding_all decide

/-- Item whose display name and normalizedName agree, used for the C8
failing input. -/
def wmNamed : GroceryItem :=
  GroceryItem.mk 1 "whole milk" "whole milk" "dairy" 1

/-- Item with the same normalizedName but a catalogue-style display name,
used for the C8 failing input. -/
def wmDisplay : GroceryItem :=
  GroceryItem.mk 2 "Whole Milk (1 gal)" "whole milk" "dairy" 1

/-- C8 evidence: the mock provider hashes the display name, not the
`normalizedName` field the shared types reserve for price-provider matching,
so two items with the identical normalized name and quantity receive
different prices. -/
theorem mock_price_depends_on_display_name :
    wmNamed.normalizedName = wmDisplay.normalizedName ∧
    wmNamed.quantity = wmDisplay.quantity ∧
    mockGetPrices [wmNamed, wmDisplay] =
      [ItemPrice.mk "whole milk" (some (488/100)) "USD" true,
       ItemPrice.mk "Whole Milk (1 gal)" (some 6) "USD" true] ∧
    (488/100 : ℚ) ≠ 6 := by
  refine ⟨rfl, rfl, ?_, ?_⟩ <;> with_unfolding_all decide

/-- C10: the mock path is store-independent: `MockPriceProvider.getPrices`
depends only on the display names and quantities of the items; under
`forceMockData` the manager's answer is identical for any two store names;
and in a forced-mock `compareStores` result every row carries the same
total. -/
theorem mock_prices_store_independent :
    (∀ items1 items2 : List GroceryItem,
      items1.map (fun i => (i.name, i.quantity)) =
        items2.map (fun i => (i.name, i.quantity)) →
      mockGetPrices items1 = mockGetPrices items2) ∧
    (∀ (m : Manager) (cache : PriceCache) (s1 s2 : String) (items : List GroceryItem),
      m.forceMockData = true →
      getPricesForStore m cache s1 items = getPricesForStore m cache s2 items) ∧
    (∀ (m : Manager) (cache : PriceCache) (stores : List Store) (items : List GroceryItem),
      m.forceMockData = true →
      ∀ r1 ∈ compareStores (managerFetch m cache) stores items,
      ∀ r2 ∈ compareStores (managerFetch m cache) stores items,
        r1.total = r2.total) := by
  have hforce : ∀ (m : Manager) (cache : PriceCache) (sname : String)
      (items : List GroceryItem), m.forceMockData = true →
      (getPricesForStore m cache sname items).1 =
        PricesResult.mk (mockGetPrices items) true
          (some "Demo mode enabled (FORCE_MOCK_DATA=true)") := by
    intro m cache sname items h
    rcases getPricesForStore_cases m cache sname items with
      ⟨_, hres⟩ | ⟨hb, _, _⟩ | ⟨hb, _, _, _, _⟩ | ⟨hb, _, _, _, _⟩
    · exact hres
    all_goals rw [h] at hb; cases hb
  refine ⟨?_, ?_, ?_⟩
  · intro items1 items2 h
    induction items1 generalizing items2 with
    | nil =>
      have : items2 = [] := List.map_eq_nil_iff.mp h.symm
      rw [this]
    | cons a t ih =>
      cases items2 with
      | nil => cases h
      | cons b t2 =>
        rw [List.map_cons, List.map_cons] at h
        have hhead := List.head_eq_of_cons_eq h
        have htail := List.tail_eq_of_cons_eq h
        have hn : a.name = b.name := congrArg Prod.fst hhead
        have hq : a.quantity = b.quantity := congrArg Prod.snd hhead
        show mockGetPrices (a :: t) = mockGetPrices (b :: t2)
        unfold mockGetPrices
        rw [List.map_cons, List.map_cons, hn, hq]
        exact congrArg (List.cons _) (ih t2 htail)
  · intro m cache s1 s2 items h
    have h1 := hforce m cache s1 items h
    have h2 := hforce m cache s2 items h
    unfold getPricesForStore at h1 h2 ⊢
    rw [if_pos h, if_pos h]
  · intro m cache stores items h r1 h1 r2 h2
    rcases List.mem_map.mp (mem_sortRows.mp h1) with ⟨sa, _, rfl⟩
    rcases List.mem_map.mp (mem_sortRows.mp h2) with ⟨sb, _, rfl⟩
    have hfa : managerFetch m cache sa items =
        .ok (getPricesForStore m cache sa.name items).1 := rfl
    have hfb : managerFetch m cache sb items =
        .ok (getPricesForStore m cache sb.name items).1 := rfl
    rw [getStoreWithPrices_ok hfa, getStoreWithPrices_ok hfb]
    show calculateTotal ((getPricesForStore m cache sa.name items).1).prices =
      calculateTotal ((getPricesForStore m cache sb.name items).1).prices
    rw [hforce m cache sa.name items h, hforce m cache sb.name items h]

/-- Forced-mock row for `sStoreA`, used to instantiate the C10 theorem. -/
def rowForceA : StoreWithPrices :=
  getStoreWithPrices (managerFetch (defaultManager true) emptyCache) sStoreA [sItemMilk]

/-- Forced-mock row for `sStoreB`, used to instantiate the C10 theorem. -/
def rowForceB : StoreWithPrices :=
  getStoreWithPrices (managerFetch (defaultManager true) emptyCache) sStoreB [sItemMilk]

/-- Witness instantiating all three parts of the C10 theorem on concrete
stores and items. -/
theorem mock_prices_store_independent_witness :
    mockGetPrices [sItemMilk] = mockGetPrices [GroceryItem.mk 2 "milk" "milk" "grain" 1] ∧
    getPricesForStore (defaultManager true) emptyCache "Walmart" [sItemMilk] =
      getPricesForStore (defaultManager true) emptyCache "Target" [sItemMilk] ∧
    rowForceA.total = rowForceB.total := by
  have h := mock_prices_store_independent
  refine ⟨?_, ?_, ?_⟩
  · exact h.1 [sItemMilk] [GroceryItem.mk 2 "milk" "milk" "grain" 1]
      (by with_unfolding_all decide)
  · exact h.2.1 (defaultManager true) emptyCache "Walmart" "Target" [sItemMilk] rfl
  · exact h.2.2 (defaultManager true) emptyCache [sStoreA, sStoreB] [sItemMilk] rfl
      rowForceA (by with_unfolding_all decide)
      rowForceB (by with_unfolding_all decide)

end GroceryCore
